import Mathlib

/-!
Verification of the std_module export-validation scripts.

This file gives a shallow embedding, in Lean, of the symbol-extraction,
cross-validation and coverage logic of the repository's Python scripts:

* `scripts/validate_exports.py` — `parse_ast_exports`, `extract_regex_exports`,
  `validate_module`;
* `scripts/clang_ast_dump_parser.py` — `ClangASTDumpParser.parse_exports`
  (same scan structure as `parse_ast_exports`);
* `scripts/symbol_coverage.py` — `extract_exports`, `find_symbol_usages`,
  `analyze_coverage`, `analyze_all_modules`, `main`;
* `scripts/validate_with_ast_dump.py` — `quick_regex_extract`;
* `scripts/ast_poc.py` — `ASTTestParser.find_usages`.

Strings are modelled as `List Char` (a Lean `String` is a wrapper around its
`data : List Char`), files as their content (`Option String`, `none` meaning
the file is missing or unreadable), and `sys.exit(code)` as `Except Nat`
with the exit code in the error position.  The Python regexes that the
scripts use are small and line-oriented; each one is translated into an
executable character-list matcher whose semantics (anchoring, greediness,
leftmost search, backtracking over alternative start positions) follows the
regex it embeds, as documented at each definition.
-/

namespace StdModule

/-- Python's `\s` character class (ASCII inputs): space, tab, newline,
vertical tab, form feed, carriage return. -/
def pySpace (c : Char) : Bool :=
  c = ' ' || c = '\t' || c = '\n' || c = Char.ofNat 11 || c = Char.ofNat 12 || c = '\r'

/-- Python's `\w` character class (ASCII inputs): letters, digits, underscore. -/
def wordChar (c : Char) : Bool :=
  c.isAlphanum || c = '_'

/-- The apostrophe character, as it appears quoting identifiers in
`UsingShadowDecl` dump lines. -/
def quoteChar : Char := Char.ofNat 39

/-- `isPrefixL needle hay`: `needle` is a prefix of `hay` (Boolean, executable). -/
def isPrefixL : List Char → List Char → Bool
  | [], _ => true
  | _ :: _, [] => false
  | a :: as, b :: bs => a = b && isPrefixL as bs

/-- `containsSub needle hay`: `needle` occurs as a contiguous substring of
`hay`.  Embeds Python's `needle in line`. -/
def containsSub (needle : List Char) : List Char → Bool
  | [] => isPrefixL needle []
  | c :: t => isPrefixL needle (c :: t) || containsSub needle t

/-- Suffix of `hay` just after the first (leftmost) occurrence of `needle`,
or `none` when `needle` does not occur.  Used to embed `re.search` for a
pattern that starts with a literal token. -/
def dropAfterFirst (needle : List Char) : List Char → Option (List Char)
  | [] => if isPrefixL needle [] then some [] else none
  | c :: t =>
    if isPrefixL needle (c :: t) then some ((c :: t).drop needle.length)
    else dropAfterFirst needle t

/-- Numeric value of a run of decimal digits (most significant first). -/
def digitsToNat (ds : List Char) : Nat :=
  ds.foldl (fun n c => n * 10 + (c.toNat - 48)) 0

/-- Embeds `re.search(r'line:(\d+)', s)` returning both the captured number
and the suffix after the digit run.  `re.search` takes the leftmost position
where the whole pattern matches, so an occurrence of `line:` not followed by
a digit is skipped and the search continues one character further on; the
`(\d+)` group is greedy, i.e. the maximal digit run. -/
def searchLineNumPos : List Char → Option (Nat × List Char)
  | [] => none
  | c :: t =>
    if isPrefixL "line:".data (c :: t) then
      let rest := (c :: t).drop 5
      let ds := rest.takeWhile Char.isDigit
      if ds.isEmpty then searchLineNumPos t
      else some (digitsToNat ds, rest.drop ds.length)
    else searchLineNumPos t

/-- The captured number of `re.search(r'line:(\d+)', s)`, as used by the
backward scan of the symbol correlator. -/
def searchLineNum (cs : List Char) : Option Nat :=
  (searchLineNumPos cs).map Prod.fst

/-- `true` iff the list starts with a Python-whitespace character. -/
def pySpaceHead : List Char → Bool
  | [] => false
  | c :: _ => pySpace c

/-- End-of-line part of the `UsingDecl` regex of `parse_ast_exports`
(`validate_exports.py`, line 135): matches `.*?\s+std::(?:\w+::)?(\w+)\s*$`
against `rest2` and returns the captured final identifier.  Working from the
end of the line: optional trailing whitespace, then the captured `\w+` run,
preceded by `::`, preceded either by one more `\w+::` segment after a literal
`std` (the greedy optional group) or directly by the literal `std`, which in
turn must be preceded by at least one whitespace character (`\s+`), all of it
inside `rest2` (the part of the line after the `line:(\d+)` capture). -/
def usingSuffix (rest2 : List Char) : Option (List Char) :=
  let r := rest2.reverse
  let r1 := r.dropWhile pySpace
  let nameRev := r1.takeWhile wordChar
  if nameRev.isEmpty then none else
  let r2 := r1.drop nameRev.length
  if isPrefixL "::".data r2 then
    let r3 := r2.drop 2
    let segRev := r3.takeWhile wordChar
    if segRev.isEmpty then none else
    let r4 := r3.drop segRev.length
    if isPrefixL "::".data r4 && ((r4.drop 2).takeWhile wordChar = "dts".data)
        && pySpaceHead ((r4.drop 2).drop 3) then
      some nameRev.reverse
    else if segRev = "dts".data && pySpaceHead r4 then
      some nameRev.reverse
    else none
  else none

/-- Embeds `re.search(r'UsingDecl.*?line:(\d+).*?\s+std::(?:\w+::)?(\w+)\s*$', line)`
(`validate_exports.py`, line 135).  The lazy `.*?` pieces make the search
take the leftmost `UsingDecl`, then the earliest following `line:`+digits;
the `\s+std::…` block is anchored at the end of the line and must lie after
the digits. -/
def usingMatch (cs : List Char) : Option (Nat × List Char) :=
  match dropAfterFirst "UsingDecl".data cs with
  | none => none
  | some rest =>
    match searchLineNumPos rest with
    | none => none
    | some (n, rest2) =>
      match usingSuffix rest2 with
      | none => none
      | some name => some (n, name)

/-- Part of the `UsingShadowDecl` regex: `.*?\'(\w+)\'` — lazily scan for the
first apostrophe that opens a quoted `\w+` run closed by another apostrophe;
a quote that does not open such a run is skipped and the scan resumes at the
next character. -/
def shadowQuote : List Char → Option (List Char)
  | [] => none
  | c :: t =>
    if c = quoteChar then
      let w := t.takeWhile wordChar
      if !w.isEmpty && isPrefixL [quoteChar] (t.drop w.length) then some w
      else shadowQuote t
    else shadowQuote t

/-- Part of the `UsingShadowDecl` regex after the literal `implicit`:
`\s+(\w+)\s+.*?\'(\w+)\'` — at least one whitespace, the greedy kind token,
at least one whitespace, then the first quoted identifier. -/
def shadowAfter (rest : List Char) : Option (List Char × List Char) :=
  let s1 := rest.takeWhile pySpace
  if s1.isEmpty then none else
  let r1 := rest.drop s1.length
  let kind := r1.takeWhile wordChar
  if kind.isEmpty then none else
  let r2 := r1.drop kind.length
  let s2 := r2.takeWhile pySpace
  if s2.isEmpty then none else
  match shadowQuote (r2.drop s2.length) with
  | none => none
  | some name => some (kind, name)

/-- Embeds `re.search(r'implicit\s+(\w+)\s+.*?\'(\w+)\'', line)`
(`validate_exports.py`, line 145): try every occurrence of the literal
`implicit` from left to right and take the first from which the remainder of
the pattern matches. -/
def shadowMatch : List Char → Option (List Char × List Char)
  | [] => none
  | c :: t =>
    if isPrefixL "implicit".data (c :: t) then
      match shadowAfter ((c :: t).drop 8) with
      | some kn => some kn
      | none => shadowMatch t
    else shadowMatch t

/-- An exported symbol recovered from the AST dump
(`ExportInfo` in `validate_exports.py` / `clang_ast_dump_parser.py`):
name, node kind (e.g. `Function`, `FunctionTemplate`, `ClassTemplate`), and
the source line recovered from the correlated `UsingDecl`. -/
structure ExportInfo where
  name : String
  kind : String
  line : Nat
deriving DecidableEq

/-- The transient state of the forward scan in `parse_ast_exports`
(`validate_exports.py`, lines 106–108): the `in_export_decl` flag, the
`in_namespace_std` flag, and the pending `current_using_decl` name. -/
structure ScanState where
  inExport : Bool
  inNs : Bool
  pending : Option (List Char)
deriving DecidableEq

/-- The bounded backward scan of the symbol correlator
(`validate_exports.py`, lines 152–162): `for j in range(i-1, max(0, i-10), -1)`,
looking for a line that contains both `UsingDecl` and the pending name;
from such a line, `re.search(r'line:(\d+)')` recovers the declaration line
and stops the scan; a `UsingDecl` line without a `line:` number lets the
scan continue further back.  `backScanGo` walks `j` downward, stopping when
`j ≤ stop` (Python's exclusive range bound); index `0` is never visited,
exactly as in the Python `range`. -/
def backScanGo (lines : List (List Char)) (name : List Char) (stop : Nat) :
    Nat → Option Nat
  | 0 => none
  | j + 1 =>
    if j + 1 ≤ stop then none
    else
      let l := lines.getD (j + 1) []
      if containsSub "UsingDecl".data l && containsSub name l then
        match searchLineNum l with
        | some n => some n
        | none => backScanGo lines name stop j
      else backScanGo lines name stop j

/-- Backward scan from line `i`: Python's `range(i-1, max(0, i-10), -1)`. -/
def backScan (lines : List (List Char)) (i : Nat) (name : List Char) : Option Nat :=
  backScanGo lines name (i - 10) (i - 1)

/-- One iteration of the forward scan of `parse_ast_exports`
(`validate_exports.py`, lines 111–164), processing the line at index `i`:
returns the successor state and the records emitted by this line.  The
branches, in source order:

1. a line containing `ExportDecl` and the module name opens the export scope;
2. inside the scope, a line starting with the tree glyph for a last
   top-level sibling and not containing `ExportDecl` closes it (only the
   `in_export_decl` flag is touched);
3. outside the scope nothing happens;
4. a `NamespaceDecl` line naming `std` (or the `filesystem`/`ranges`
   allow-list) sets the namespace flag;
5. outside the namespace nothing happens;
6. a matching `UsingDecl` line records the pending name;
7. a `UsingShadowDecl … implicit` line whose quoted identifier equals the
   pending name triggers the correlation step: the bounded backward scan
   recovers the declaration line and, only on success, a record is emitted;
   in both cases the pending name is cleared. -/
def scanStep (modName : List Char) (lines : List (List Char)) (i : Nat)
    (st : ScanState) : ScanState × List ExportInfo :=
  let line := lines.getD i []
  if containsSub "ExportDecl".data line && containsSub modName line then
    ({ st with inExport := true }, [])
  else if st.inExport && isPrefixL "`-".data line &&
      !containsSub "ExportDecl".data line then
    ({ st with inExport := false }, [])
  else if !st.inExport then (st, [])
  else if containsSub "NamespaceDecl".data line &&
      (containsSub " std".data line || containsSub "filesystem".data line ||
        containsSub "ranges".data line) then
    ({ st with inNs := true }, [])
  else if !st.inNs then (st, [])
  else
    match usingMatch line with
    | some (_, name) => ({ st with pending := some name }, [])
    | none =>
      match st.pending with
      | some pname =>
        if containsSub "UsingShadowDecl".data line && containsSub "implicit".data line then
          match shadowMatch line with
          | some (kind, sname) =>
            if sname = pname then
              match backScan lines i pname with
              | some ln =>
                ({ st with pending := none },
                  [⟨String.mk sname, String.mk kind, ln⟩])
              | none => ({ st with pending := none }, [])
            else (st, [])
          | none => (st, [])
        else (st, [])
      | none => (st, [])

/-- The forward scan driver: `for i, line in enumerate(lines)`.  The second
list argument is the remaining tail of `lines`, used only to drive the
recursion; `lines` itself stays available to each step for the backward
scan. -/
def scanLoop (modName : List Char) (lines : List (List Char)) :
    Nat → List (List Char) → ScanState → List ExportInfo → List ExportInfo
  | _, [], _, acc => acc
  | i, _ :: rest, st, acc =>
    let p := scanStep modName lines i st
    scanLoop modName lines (i + 1) rest p.1 (acc ++ p.2)

/-- `ast_dump.split('\n')`. -/
def splitOnChar (sep : Char) : List Char → List (List Char)
  | [] => [[]]
  | c :: t =>
    match splitOnChar sep t with
    | [] => [[]]
    | h :: r => if c = sep then [] :: h :: r else (c :: h) :: r

/-- The lines of a dump, as character lists. -/
def linesOf (s : String) : List (List Char) :=
  splitOnChar '\n' s.data

/-- The raw emitted sequence of `ExportInfo` records of the scan (the
`exports` list of `parse_ast_exports` before deduplication). -/
def scanExports (modName : String) (dump : String) : List ExportInfo :=
  scanLoop modName.data (linesOf dump) 0 (linesOf dump) ⟨false, false, none⟩ []

/-- The deduplication loop of `parse_ast_exports` (`validate_exports.py`,
lines 166–172): walk the emitted records keeping the first record of each
name (`seen` is the set of names already kept). -/
def dedupeGo (seen : List String) : List ExportInfo → List ExportInfo
  | [] => []
  | e :: t =>
    if seen.contains e.name then dedupeGo seen t
    else e :: dedupeGo (e.name :: seen) t

/-- Deduplicate by name, first occurrence winning. -/
def dedupeExports (l : List ExportInfo) : List ExportInfo :=
  dedupeGo [] l

/-- Code-point lexicographic order on character lists — Python's string
comparison, used by `sorted(..., key=lambda x: x.name)`. -/
def lexLeC : List Char → List Char → Bool
  | [], _ => true
  | _ :: _, [] => false
  | a :: as, b :: bs => if a = b then lexLeC as bs else decide (a.toNat < b.toNat)

/-- Insert a record into a name-sorted list. -/
def insertByName (e : ExportInfo) : List ExportInfo → List ExportInfo
  | [] => [e]
  | x :: xs => if lexLeC e.name.data x.name.data then e :: x :: xs
    else x :: insertByName e xs

/-- Sort records by name (insertion sort).  After deduplication the names
are pairwise distinct, so this yields the same list as Python's stable
`sorted(..., key=lambda x: x.name)`. -/
def sortByName (l : List ExportInfo) : List ExportInfo :=
  l.foldr insertByName []

/-- `parse_ast_exports(ast_dump, module_file)` (`validate_exports.py`,
lines 92–174): run the scan over the dump's lines, deduplicate by name
(first wins) and sort the result by name.  `modName` is
`module_file.stem`. -/
def parse_ast_exports (modName : String) (dump : String) : List ExportInfo :=
  sortByName (dedupeExports (scanExports modName dump))

/-! ### Heuristic extractors

Three regex-based extractors appear in the scripts; all `re.match` (anchored
at the start of the line, allowing trailing text after the terminator):

* `validate_exports.extract_regex_exports` (line 192):
  `\s*using\s+std::(?:\w+::)*(\w+)\s*;` — captures the final segment;
* `symbol_coverage.extract_exports` (line 65):
  `\s*using\s+std::(\w+(?:::\w+)*)\s*;` — captures the whole scoped name;
* `validate_with_ast_dump.quick_regex_extract` (line 16):
  `\s*using\s+std::(\w+)\s*;` — single segment only.
-/

/-- Common prefix `\s*using\s+std::` of the three import-line regexes:
skip leading whitespace, the literal `using`, at least one whitespace,
the literal `std::`; returns the remainder of the line. -/
def afterUsingStd (cs : List Char) : Option (List Char) :=
  let r1 := cs.dropWhile pySpace
  if isPrefixL "using".data r1 then
    let r2 := r1.drop 5
    let sp := r2.takeWhile pySpace
    if sp.isEmpty then none else
    let r3 := r2.drop sp.length
    if isPrefixL "std::".data r3 then some (r3.drop 5) else none
  else none

/-- Greedy parse of `\w+(::\w+)*`: a nonempty word run followed by as many
`::`-separated word runs as possible; returns the list of runs and the
remainder.  The fuel argument (any value at least the number of extra
segments, e.g. the line length) only bounds the recursion; when the
character after a `::` is not a word character the star stops before that
`::`, exactly as the regex's greedy group with backtracking does (a shorter
parse can never rescue the subsequent `\s*;`). -/
def parseSegs : Nat → List Char → Option (List (List Char) × List Char)
  | fuel, cs =>
    let w := cs.takeWhile wordChar
    if w.isEmpty then none else
    let rest := cs.drop w.length
    match fuel with
    | 0 => some ([w], rest)
    | f + 1 =>
      if isPrefixL "::".data rest then
        match parseSegs f (rest.drop 2) with
        | some (ws, r) => some (w :: ws, r)
        | none => some ([w], rest)
      else some ([w], rest)

/-- Join segments with `::` (the text the group `(\w+(?:::\w+)*)` captured). -/
def joinSegs : List (List Char) → List Char
  | [] => []
  | [w] => w
  | w :: ws => w ++ "::".data ++ joinSegs ws

/-- After the captured name: `\s*;` (trailing text after `;` is allowed,
since `re.match` only anchors the start). -/
def semiAfter (rest : List Char) : Bool :=
  match rest.dropWhile pySpace with
  | c :: _ => c = ';'
  | [] => false

/-- `re.match(r'\s*using\s+std::(?:\w+::)*(\w+)\s*;', line)` — the matcher of
`extract_regex_exports` (`validate_exports.py`, line 192).  Captures the
final identifier segment. -/
def reMatchV (cs : List Char) : Option String :=
  match afterUsingStd cs with
  | none => none
  | some r =>
    match parseSegs r.length r with
    | none => none
    | some (ws, rest) =>
      if semiAfter rest then some (String.mk (ws.getLastD [])) else none

/-- `re.match(r'\s*using\s+std::(\w+(?:::\w+)*)\s*;', line)` — the matcher of
`extract_exports` (`symbol_coverage.py`, line 65).  Captures the whole
scoped name after `std::`. -/
def reMatchS (cs : List Char) : Option String :=
  match afterUsingStd cs with
  | none => none
  | some r =>
    match parseSegs r.length r with
    | none => none
    | some (ws, rest) =>
      if semiAfter rest then some (String.mk (joinSegs ws)) else none

/-- `re.match(r'\s*using\s+std::(\w+)\s*;', line)` — the matcher of
`quick_regex_extract` (`validate_with_ast_dump.py`, line 16).  A single
segment only; a nested name does not match at all. -/
def reMatchQ (cs : List Char) : Option String :=
  match afterUsingStd cs with
  | none => none
  | some r =>
    let w := r.takeWhile wordChar
    if w.isEmpty then none else
    if semiAfter (r.drop w.length) then some (String.mk w) else none

/-- The set built by `extract_regex_exports` over the module file's lines. -/
def extractExportsV (moduleLines : List String) : Finset String :=
  moduleLines.foldl
    (fun s l => match reMatchV l.data with | some n => insert n s | none => s) ∅

/-- The set built by `symbol_coverage.extract_exports` over the module
file's lines. -/
def extractExportsS (moduleLines : List String) : Finset String :=
  moduleLines.foldl
    (fun s l => match reMatchS l.data with | some n => insert n s | none => s) ∅

/-- The set built by `quick_regex_extract` over the module file's lines. -/
def extractExportsQ (moduleLines : List String) : Finset String :=
  moduleLines.foldl
    (fun s l => match reMatchQ l.data with | some n => insert n s | none => s) ∅

/-! ### Validation verdict -/

/-- The verdict of `validate_module` (`validate_exports.py`, lines 201–267),
as a function of the AST dump text (`none`: `get_clang_ast_dump` failed;
Python treats an empty dump string as falsy too), the module file's lines,
and the `--list-only` flag:

* no dump, or empty dump: `False` (failed to get AST dump);
* `parse_ast_exports` yields no exports: prints the "No exports found in AST
  dump" warning and returns `False`;
* `--list-only`: `True`;
* otherwise `True` iff the AST name set equals the regex name set. -/
def validate_module_m (modName : String) (astDump : Option String)
    (moduleLines : List String) (listOnly : Bool) : Bool :=
  match astDump with
  | none => false
  | some d =>
    if d = "" then false
    else
      let ce := parse_ast_exports modName d
      if ce = [] then false
      else if listOnly then true
      else decide (((ce.map ExportInfo.name).toFinset : Finset String)
        = extractExportsV moduleLines)

/-! ### Coverage computation (`symbol_coverage.py`) -/

/-- `\b` before the pattern: the pattern of `find_symbol_usages` starts with
the word character `s` (of `std::`), so the boundary holds exactly when the
preceding character (if any) is not a word character. -/
def startBoundary : Option Char → Bool
  | none => true
  | some p => !wordChar p

/-- `\b` after the pattern: the captured symbol ends in a word character, so
the boundary holds exactly when the following character (if any) is not a
word character. -/
def endBoundary : List Char → Bool
  | [] => true
  | c :: _ => !wordChar c

/-- Non-overlapping left-to-right count of `re.findall(rf'\bstd::{symbol}\b',
content)` (`symbol_coverage.py`, lines 103–105): at each position, if the
pattern occurs there with word boundaries on both sides, count it and resume
after it (tracking the previous character for the next `\b`); otherwise move
one character on.  The fuel is the content length (each step consumes at
least one character). -/
def countOccGo (pat : List Char) : Nat → Option Char → List Char → Nat
  | 0, _, _ => 0
  | f + 1, prev, cs =>
    match cs with
    | [] => 0
    | c :: t =>
      if startBoundary prev && isPrefixL pat cs && endBoundary (cs.drop pat.length) then
        1 + countOccGo pat f (some (pat.getLastD c)) (cs.drop pat.length)
      else countOccGo pat f (some c) t

/-- `len(re.findall(rf'\bstd::{re.escape(symbol)}\b', content))` — the usage
count of one symbol in the test file (`find_symbol_usages`).  The symbols
fed to it are regex captures made of word characters and `::`, for which
`re.escape` is the identity and both boundary characters are word
characters. -/
def countUsages (content symbol : String) : Nat :=
  countOccGo ("std::".data ++ symbol.data) content.data.length none content.data

/-- The coverage computation of `analyze_coverage` (`symbol_coverage.py`,
lines 131–189) on the extracted export set and the test file's content:
`(used, total, unused_symbols)`.  When the export set is empty the function
returns `(0, 0, ∅)` early (before the test file is even scanned); otherwise
the loop over the sorted symbols partitions them by whether their usage
count is positive. -/
def analyzeCounts (exports : Finset String) (testContent : String) :
    Nat × Nat × Finset String :=
  if exports = ∅ then (0, 0, ∅)
  else
    ((exports.filter fun s => 0 < countUsages testContent s).card,
      exports.card,
      exports.filter fun s => countUsages testContent s = 0)

/-- `coverage_pct = (used / total * 100) if total > 0 else 0`
(`symbol_coverage.py`, line 167), over the rationals. -/
def coveragePct (used total : Nat) : ℚ :=
  if 0 < total then (used : ℚ) / (total : ℚ) * 100 else 0

/-! ### Exit-status model of `symbol_coverage.py`

File reads are modelled by `Option String` (`none`: the file is missing or
unreadable) and `sys.exit(code)` by `Except Nat` with the code in the error
position, so that an error propagating to the driver aborts everything that
would have run after it — exactly the effect of `sys.exit` inside
`extract_exports` / `find_symbol_usages` (`symbol_coverage.py`, lines 70–75
and 107–112, both `sys.exit(1)`). -/

/-- `extract_exports(cppm_file)`: a missing or unreadable module file calls
`sys.exit(1)`; otherwise the per-line regex builds the export set. -/
def extract_exports_m (moduleContent : Option String) : Except Nat (Finset String) :=
  match moduleContent with
  | none => Except.error 1
  | some s => Except.ok (extractExportsS (s.splitOn "\n"))

/-- `analyze_coverage(module_file, test_file)`: extract the exports (exiting
on a missing module file), return `(0, 0, ∅)` when there are none (before
touching the test file), otherwise scan the test file — a missing test file
makes `find_symbol_usages` call `sys.exit(1)` — and compute the counts. -/
def analyze_coverage_m (moduleContent testContent : Option String) :
    Except Nat (Nat × Nat × Finset String) :=
  match extract_exports_m moduleContent with
  | Except.error c => Except.error c
  | Except.ok exports =>
    if exports = ∅ then Except.ok (0, 0, ∅)
    else
      match testContent with
      | none => Except.error 1
      | some c => Except.ok (analyzeCounts exports c)

/-- The loop of `analyze_all_modules` (`symbol_coverage.py`, lines 218–232)
over `(module content, test content)` pairs: a module whose test file does
not exist (`none`) is skipped with a warning; otherwise `analyze_coverage`
runs (its `sys.exit` aborting the whole loop) and `all_perfect` collects
whether every analyzed module had no unused symbols. -/
def analyze_all_go : List (Option String × Option String) → Except Nat Bool
  | [] => Except.ok true
  | (mc, tc) :: rest =>
    match tc with
    | none => analyze_all_go rest
    | some t =>
      match analyze_coverage_m mc (some t) with
      | Except.error c => Except.error c
      | Except.ok (_, _, unused) =>
        match analyze_all_go rest with
        | Except.error c => Except.error c
        | Except.ok b => Except.ok (b && decide (unused = ∅))

/-- `analyze_all_modules(repo_root)`: no module files at all returns
`False`; otherwise the loop above. -/
def analyze_all_modules_m (mods : List (Option String × Option String)) :
    Except Nat Bool :=
  if mods = [] then Except.ok false else analyze_all_go mods

/-- Exit status of `main()` in `--all` mode (`symbol_coverage.py`, lines
260–265): `analyze_all_modules` runs (any inner `sys.exit(1)` becomes the
exit status), then `sys.exit(0)` regardless of the returned coverage
verdict. -/
def mainAll (mods : List (Option String × Option String)) : Nat :=
  match analyze_all_modules_m mods with
  | Except.error c => c
  | Except.ok _ => 0

/-- Exit status of `main()` in two-argument mode (`symbol_coverage.py`,
lines 267–275): `analyze_coverage` runs, then `sys.exit(0)`. -/
def mainSingle (moduleContent testContent : Option String) : Nat :=
  match analyze_coverage_m moduleContent testContent with
  | Except.error c => c
  | Except.ok _ => 0

/-! ### The AST usage locator (`ast_poc.py`, `ASTTestParser.find_usages`) -/

/-- The libclang cursor kinds that `find_usages` inspects. -/
inductive CKind where
  | callExpr
  | declRefExpr
  | memberRefExpr
  | varDecl
  | other
deriving DecidableEq

/-- A parsed AST node: cursor kind, `spelling`, `type.spelling`, the file of
`cursor.location` (`none` models a null location file, which Python's
truthiness test lets through the filter), the location line, and the child
nodes. -/
inductive PNode where
  | mk (kind : CKind) (spelling : String) (typeSpelling : String)
      (file : Option String) (line : Nat) (children : List PNode)

/-- One usage found in the test file (`SymbolUsage` in `ast_poc.py`): the
symbol, the usage kind (`call` / `reference` / `declaration`), and the
node's location file and line.  The best-effort token context is orthogonal
to the location logic and not modelled. -/
structure UsageRecord where
  symbol : String
  ukind : String
  file : Option String
  line : Nat
deriving DecidableEq

/-- `_extract_symbol_name`: the segment after the last `::` (Python's
`qualified_name.split('::')[-1]`; the whole name when there is no `::`). -/
def lastSegGo (cur : List Char) : List Char → List Char
  | [] => cur.reverse
  | ':' :: ':' :: t => lastSegGo [] t
  | c :: t => lastSegGo (c :: cur) t

/-- `_extract_symbol_name(qualified_name)`. -/
def lastSegS (s : String) : String :=
  String.mk (lastSegGo [] s.data)

/-- The child search of the `CALL_EXPR` branch: the first child whose kind
is `DECL_REF_EXPR` or `MEMBER_REF_EXPR` (the `break` stops at the first such
child whether or not it yields a usage); returns its spelling. -/
def firstRefChild : List PNode → Option String
  | [] => none
  | PNode.mk k sp _ _ _ _ :: rest =>
    if k = CKind.declRefExpr || k = CKind.memberRefExpr then some sp
    else firstRefChild rest

/-- The location filter of `visit_node` (`ast_poc.py`, line 184): prune a
node exactly when its location file is present (truthy) and differs from the
test file; a node with no location file passes. -/
def locOutside (tf : String) : Option String → Bool
  | some f => decide (f ≠ tf)
  | none => false

/-- The usages contributed by one visited node itself (`ast_poc.py`, lines
187–229): a `CALL_EXPR` contributes a `call` usage through its first
reference-like child; a `DECL_REF_EXPR` a `reference` usage from its own
spelling; a `VAR_DECL` a `declaration` usage from its type spelling; every
record carries the visited node's own location. -/
def hereRecords (syms : List String) (k : CKind) (sp tsp : String)
    (file : Option String) (line : Nat) (children : List PNode) :
    List UsageRecord :=
  match k with
  | CKind.callExpr =>
    match firstRefChild children with
    | some csp =>
      if syms.contains (lastSegS csp) then [⟨lastSegS csp, "call", file, line⟩]
      else []
    | none => []
  | CKind.declRefExpr =>
    if syms.contains (lastSegS sp) then [⟨lastSegS sp, "reference", file, line⟩]
    else []
  | CKind.varDecl =>
    if syms.contains (lastSegS tsp) then [⟨lastSegS tsp, "declaration", file, line⟩]
    else []
  | _ => []

/-- `visit_node` of `find_usages` (`ast_poc.py`, lines 181–233), with an
explicit recursion-depth fuel (the Python function recurses structurally on
the tree; any fuel at least the tree depth gives the same result).  A pruned
node is skipped with its whole subtree; otherwise the node contributes its
own records and then the children are visited. -/
def visitFuel (tf : String) (syms : List String) : Nat → PNode → List UsageRecord
  | 0, _ => []
  | fuel + 1, PNode.mk k sp tsp file line children =>
    if locOutside tf file then []
    else
      hereRecords syms k sp tsp file line children ++
        (children.map (visitFuel tf syms fuel)).flatten

/-- `find_usages(tu, symbols)` on a tree of depth at most `fuel`. -/
def find_usages (tf : String) (syms : List String) (fuel : Nat) (root : PNode) :
    List UsageRecord :=
  visitFuel tf syms fuel root

/-! ### Concrete dumps used in the theorems below -/

/-- Join lines with newlines (inverse of `linesOf` on newline-free lines). -/
def unlines : List (List Char) → List Char
  | [] => []
  | [l] => l
  | l :: ls => l ++ '\n' :: unlines ls

/-- A quoted identifier as it appears on a `UsingShadowDecl` line. -/
def quoted (s : String) : List Char :=
  quoteChar :: s.data ++ [quoteChar]

/-- A shadow-declaration line revealing kind `kind` for identifier `name`. -/
def shadowLine (kind name : String) : List Char :=
  "|-UsingShadowDecl 0x6 implicit ".data ++ kind.data ++ " 0x7 ".data ++ quoted name

/-- A dump in which the `UsingDecl` for `foo` (line index 2) lies more than
nine lines before its kind-revealing shadow declaration (line index 12), so
the bounded backward scan of the correlator cannot reach it. -/
def dumpGapLines : List (List Char) :=
  [ "|-ExportDecl 0x1 in mymod".data,
    "|-NamespaceDecl 0x2 std".data,
    "|-UsingDecl 0x3 <line:5:1> col:1 std::foo".data,
    "|-FieldDecl pad3".data,
    "|-FieldDecl pad4".data,
    "|-FieldDecl pad5".data,
    "|-FieldDecl pad6".data,
    "|-FieldDecl pad7".data,
    "|-FieldDecl pad8".data,
    "|-FieldDecl pad9".data,
    "|-FieldDecl pad10".data,
    "|-FieldDecl pad11".data,
    shadowLine "Function" "foo" ]

/-- The gap dump as one text blob. -/
def dumpGap : String := String.mk (unlines dumpGapLines)

/-- A dump with two export blocks for the same module: the first enters the
`std` namespace and records pending name `foo`; a top-level sibling closes
the block; the second block reopens and immediately carries the shadow
declaration for `foo` — with no `NamespaceDecl` and no `UsingDecl` of its
own inside the second block. -/
def dumpLeakLines : List (List Char) :=
  [ "|-ExportDecl 0x1 in mymod".data,
    "|-NamespaceDecl 0x2 std".data,
    "|-UsingDecl 0x3 <line:5:1> col:1 std::foo".data,
    "`-CXXRecordDecl 0x4 zz".data,
    "`-ExportDecl 0x5 in mymod".data,
    shadowLine "Function" "foo" ]

/-- The two-block dump as one text blob. -/
def dumpLeak : String := String.mk (unlines dumpLeakLines)

/-- A dump exporting `foo` twice (two `UsingDecl`/shadow pairs, simulating
an overload set): the raw scan emits two records for `foo`. -/
def dumpOverloadLines : List (List Char) :=
  [ "|-ExportDecl 0x1 in mymod".data,
    "|-NamespaceDecl 0x2 std".data,
    "|-UsingDecl 0x3 <line:5:1> col:1 std::foo".data,
    shadowLine "Function" "foo",
    "|-UsingDecl 0x8 <line:9:1> col:1 std::foo".data,
    shadowLine "ClassTemplate" "foo" ]

/-- The overload dump as one text blob. -/
def dumpOverload : String := String.mk (unlines dumpOverloadLines)

/-- An AST node whose location has no file at all (a null location file) but
which references `std::format`. -/
def nodeNoFile : PNode :=
  PNode.mk CKind.declRefExpr "std::format" "" none 7 []

/-! ### Helper lemmas -/

lemma str_contains_iff (s : List String) (a : String) :
    s.contains a = true ↔ a ∈ s := by
  simp [List.contains, List.elem_eq_mem]

lemma str_contains_false (s : List String) (a : String) (h : a ∉ s) :
    s.contains a = false := by
  cases hc : s.contains a with
  | false => rfl
  | true => exact absurd ((str_contains_iff s a).1 hc) h

/-- A record kept by the deduplication loop was not already seen, and is the
first record with its name in the input list. -/
lemma dedupeGo_find (l : List ExportInfo) : ∀ (seen : List String) (e : ExportInfo),
    e ∈ dedupeGo seen l →
    e.name ∉ seen ∧ l.find? (fun r => r.name == e.name) = some e := by
  induction l with
  | nil => intro seen e he; simp [dedupeGo] at he
  | cons x t ih =>
    intro seen e he
    by_cases hc : x.name ∈ seen
    · have hc' : seen.contains x.name = true := (str_contains_iff _ _).2 hc
      rw [dedupeGo, hc'] at he
      simp only [if_true] at he
      obtain ⟨hn, hf⟩ := ih seen e he
      have hbx : (x.name == e.name) = false :=
        beq_eq_false_iff_ne.2 fun hEq => hn (hEq ▸ hc)
      refine ⟨hn, ?_⟩
      rw [List.find?_cons]
      simp only [hbx]
      exact hf
    · have hc' : seen.contains x.name = false := str_contains_false _ _ hc
      rw [dedupeGo, hc'] at he
      simp only [Bool.false_eq_true, if_false, List.mem_cons] at he
      rcases he with he | he
      · subst he
        refine ⟨hc, ?_⟩
        rw [List.find?_cons]
        simp
      · obtain ⟨hn, hf⟩ := ih (x.name :: seen) e he
        have hbx : (x.name == e.name) = false :=
          beq_eq_false_iff_ne.2 fun hEq => hn (hEq ▸ List.mem_cons_self _ _)
        refine ⟨fun hm => hn (List.mem_cons_of_mem _ hm), ?_⟩
        rw [List.find?_cons]
        simp only [hbx]
        exact hf

/-- A name already seen never reappears among the kept records. -/
lemma dedupeGo_not_seen (l : List ExportInfo) : ∀ (seen : List String) (s : String),
    s ∈ seen → s ∉ (dedupeGo seen l).map ExportInfo.name := by
  induction l with
  | nil => intro seen s _ h; simp [dedupeGo] at h
  | cons x t ih =>
    intro seen s hs
    by_cases hc : x.name ∈ seen
    · rw [dedupeGo, (str_contains_iff _ _).2 hc]
      simp only [if_true]
      exact ih seen s hs
    · rw [dedupeGo, str_contains_false _ _ hc]
      simp only [Bool.false_eq_true, if_false, List.map_cons, List.mem_cons]
      rintro (h | h)
      · exact hc (h ▸ hs)
      · exact ih (x.name :: seen) s (List.mem_cons_of_mem _ hs) h

/-- The kept records carry pairwise distinct names. -/
lemma dedupeGo_nodup (l : List ExportInfo) : ∀ (seen : List String),
    ((dedupeGo seen l).map ExportInfo.name).Nodup := by
  induction l with
  | nil => intro seen; simp [dedupeGo]
  | cons x t ih =>
    intro seen
    by_cases hc : x.name ∈ seen
    · rw [dedupeGo, (str_contains_iff _ _).2 hc]
      simp only [if_true]
      exact ih seen
    · rw [dedupeGo, str_contains_false _ _ hc]
      simp only [Bool.false_eq_true, if_false, List.map_cons, List.nodup_cons]
      exact ⟨dedupeGo_not_seen t (x.name :: seen) x.name (List.mem_cons_self _ _),
        ih (x.name :: seen)⟩

/-- Insertion keeps the elements (as a permutation). -/
lemma insertByName_perm (e : ExportInfo) (l : List ExportInfo) :
    (insertByName e l).Perm (e :: l) := by
  induction l with
  | nil => simp [insertByName]
  | cons x xs ih =>
    rw [insertByName]
    by_cases hc : lexLeC e.name.data x.name.data = true
    · rw [if_pos hc]
    · rw [if_neg hc]
      exact (ih.cons x).trans (List.Perm.swap e x xs)

/-- The sort is a permutation of its input. -/
lemma sortByName_perm (l : List ExportInfo) : (sortByName l).Perm l := by
  induction l with
  | nil => simp [sortByName]
  | cons x xs ih =>
    have hstep : sortByName (x :: xs) = insertByName x (sortByName xs) := rfl
    rw [hstep]
    exact (insertByName_perm x (sortByName xs)).trans (ih.cons x)

/-- Out of range or covered by the hypothesis: the export-marker test of
branch 1 of the scan is false on every line index. -/
lemma marker_false_at (modName : List Char) (lines : List (List Char)) (i : Nat)
    (h : ∀ l ∈ lines, (containsSub "ExportDecl".data l && containsSub modName l) = false) :
    (containsSub "ExportDecl".data (lines.getD i []) &&
      containsSub modName (lines.getD i [])) = false := by
  rw [List.getD_eq_getElem?_getD]
  cases hg : lines[i]? with
  | none => simp only [hg, Option.getD_none]; rfl
  | some a =>
    simp only [hg, Option.getD_some]
    exact h a (List.getElem?_mem hg)

/-- With the export flag down and no opening marker, a scan step changes
nothing. -/
lemma scanStep_outside (modName : List Char) (lines : List (List Char)) (i : Nat)
    (st : ScanState)
    (h1 : (containsSub "ExportDecl".data (lines.getD i []) &&
      containsSub modName (lines.getD i [])) = false)
    (hex : st.inExport = false) :
    scanStep modName lines i st = (st, []) := by
  unfold scanStep
  simp only [List.getD_eq_getElem?_getD] at h1
  simp [h1, hex]

/-- A dump none of whose lines carries the export marker for the module
leaves the scan outside the export scope throughout and emits nothing. -/
lemma scanLoop_outside (modName : List Char) (lines : List (List Char))
    (h : ∀ l ∈ lines, (containsSub "ExportDecl".data l && containsSub modName l) = false) :
    ∀ (rem : List (List Char)) (i : Nat) (ns : Bool) (p : Option (List Char))
      (acc : List ExportInfo),
      scanLoop modName lines i rem ⟨false, ns, p⟩ acc = acc := by
  intro rem
  induction rem with
  | nil => intro i ns p acc; rfl
  | cons hd tl ih =>
    intro i ns p acc
    rw [scanLoop, scanStep_outside modName lines i ⟨false, ns, p⟩
      (marker_false_at modName lines i h) rfl]
    simpa using ih (i + 1) ns p acc

/-! ### The claims -/

set_option maxRecDepth 40000 in
/-- C1, counterexample.  The claim says that when a kind-revealing
shadow-declaration line matches the pending name but the bounded backward
scan misses the originating import line, the symbol is still emitted with an
unset declaration line.  In `dumpGap` the shadow line (index 12) matches the
pending name `foo` and the `UsingDecl` line (index 2) lies outside the
backward window `range(i-1, max(0, i-10), -1)`, yet the catalog is empty:
the code appends a record only inside the backward scan's success branch
(`validate_exports.py`, lines 152–162), so the symbol is dropped — there is
not even a representation of "unset declaration line" (`ExportInfo.line` is
mandatory). -/
theorem correlation_gap_drops_symbol_cex :
    shadowMatch (shadowLine "Function" "foo") = some ("Function".data, "foo".data) ∧
    backScan dumpGapLines 12 "foo".data = none ∧
    parse_ast_exports "mymod" dumpGap = [] := by
  refine ⟨by decide, by decide, by decide⟩

/-- C1, amended.  When the scan is inside the export block and the
qualifying namespace with pending name `pname`, and the current line is a
kind-revealing shadow-declaration line matching `pname` but the bounded
backward scan finds no originating import line, the step emits nothing (the
symbol is dropped from the catalog, not emitted with an unset line) and the
pending name is cleared. -/
theorem correlation_gap_drops_symbol (modName : List Char) (lines : List (List Char))
    (i : Nat) (st : ScanState) (pname kind : List Char)
    (hex : st.inExport = true) (hns : st.inNs = true) (hpend : st.pending = some pname)
    (h1 : containsSub "ExportDecl".data (lines.getD i []) = false)
    (hpre : isPrefixL "`-".data (lines.getD i []) = false)
    (hnd : containsSub "NamespaceDecl".data (lines.getD i []) = false)
    (h6 : usingMatch (lines.getD i []) = none)
    (h7a : containsSub "UsingShadowDecl".data (lines.getD i []) = true)
    (h7b : containsSub "implicit".data (lines.getD i []) = true)
    (h8 : shadowMatch (lines.getD i []) = some (kind, pname))
    (hback : backScan lines i pname = none) :
    scanStep modName lines i st = ({ st with pending := none }, []) := by
  unfold scanStep
  simp only [List.getD_eq_getElem?_getD] at h1 hpre hnd h6 h7a h7b h8
  simp [h1, hpre, hnd, h6, h7a, h7b, h8, hex, hns, hpend, hback]

set_option maxRecDepth 40000 in
/-- C1, witness: the amended theorem applied at the gap dump (line index 12,
state inside block and namespace with pending `foo`). -/
theorem correlation_gap_drops_symbol_witness :
    scanStep "mymod".data dumpGapLines 12 ⟨true, true, some "foo".data⟩ =
      (⟨true, true, none⟩, []) :=
  correlation_gap_drops_symbol "mymod".data dumpGapLines 12
    ⟨true, true, some "foo".data⟩ "foo".data "Function".data
    rfl rfl rfl (by decide) (by decide) (by decide) (by decide) (by decide)
    (by decide) (by decide) (by decide)

set_option maxRecDepth 40000 in
/-- C2, counterexample.  The claim says that closing an export block resets
the scan state fully to Outside, the namespace flag and pending name
included, so that nothing persists into a later export block of the same
dump.  In `dumpLeak` the first block enters the `std` namespace and records
pending name `foo`; the block closes at index 3; the second block (index 4)
contains only the shadow line — no `NamespaceDecl` and no `UsingDecl` of its
own — yet `foo` is emitted, because the close transition resets only
`in_export_decl` (`validate_exports.py`, lines 118–120) and both
`in_namespace_std` and `current_using_decl` leak across blocks.  Under the
claim the catalog would be empty. -/
theorem close_scope_state_leak_cex :
    parse_ast_exports "mymod" dumpLeak = [⟨"foo", "Function", 5⟩] := by
  decide

/-- C2, amended.  A close transition (a line whose tree prefix marks a last
top-level sibling and which does not contain the export marker) resets only
the in-export flag: the namespace flag and any pending declaration name
persist unchanged into the lines after the close, including a later export
block of the same dump. -/
theorem close_scope_resets_only_export_flag (modName : List Char)
    (lines : List (List Char)) (i : Nat) (st : ScanState)
    (hex : st.inExport = true)
    (h1 : containsSub "ExportDecl".data (lines.getD i []) = false)
    (hpre : isPrefixL "`-".data (lines.getD i []) = true) :
    scanStep modName lines i st = ({ st with inExport := false }, []) := by
  unfold scanStep
  simp only [List.getD_eq_getElem?_getD] at h1 hpre
  simp [h1, hpre, hex]

/-- C2, witness: the amended theorem applied at the close line (index 3) of
the two-block dump, with the namespace flag up and pending name `foo`;
both survive the close. -/
theorem close_scope_resets_only_export_flag_witness :
    scanStep "mymod".data dumpLeakLines 3 ⟨true, true, some "foo".data⟩ =
      (⟨false, true, some "foo".data⟩, []) :=
  close_scope_resets_only_export_flag "mymod".data dumpLeakLines 3
    ⟨true, true, some "foo".data⟩ rfl (by decide) (by decide)

/-- C10: during the correlation scan, whenever a kind-revealing
shadow-declaration line's quoted identifier equals the pending name, the
pending name is cleared — whether or not the backward search finds the
originating import line and emits a record.  (A later shadow line with the
same name then finds no pending name, and the shadow branch requires one, so
no catalog entry can arise until a new import line sets a new pending
name.) -/
theorem shadow_match_clears_pending (modName : List Char) (lines : List (List Char))
    (i : Nat) (st : ScanState) (pname kind : List Char)
    (hex : st.inExport = true) (hns : st.inNs = true) (hpend : st.pending = some pname)
    (h1 : containsSub "ExportDecl".data (lines.getD i []) = false)
    (hpre : isPrefixL "`-".data (lines.getD i []) = false)
    (hnd : containsSub "NamespaceDecl".data (lines.getD i []) = false)
    (h6 : usingMatch (lines.getD i []) = none)
    (h7a : containsSub "UsingShadowDecl".data (lines.getD i []) = true)
    (h7b : containsSub "implicit".data (lines.getD i []) = true)
    (h8 : shadowMatch (lines.getD i []) = some (kind, pname)) :
    (scanStep modName lines i st).1.pending = none := by
  unfold scanStep
  simp only [List.getD_eq_getElem?_getD] at h1 hpre hnd h6 h7a h7b h8
  cases hb : backScan lines i pname <;>
    simp [h1, hpre, hnd, h6, h7a, h7b, h8, hex, hns, hpend, hb]

set_option maxRecDepth 40000 in
/-- C10, witness: the theorem applied at the shadow line of the gap dump,
where the backward scan fails and nothing is emitted — the pending name is
cleared all the same. -/
theorem shadow_match_clears_pending_witness :
    (scanStep "mymod".data dumpGapLines 12 ⟨true, true, some "foo".data⟩).1.pending
      = none :=
  shadow_match_clears_pending "mymod".data dumpGapLines 12
    ⟨true, true, some "foo".data⟩ "foo".data "Function".data
    rfl rfl rfl (by decide) (by decide) (by decide) (by decide) (by decide)
    (by decide) (by decide)

/-- C3, counterexample.  The claim says a zero-symbol extraction is surfaced
by the validator as a warning, not as an error or a failed validation
verdict.  On a dump with no export block, `parse_ast_exports` does complete
with an empty catalog and no error — but `validate_module` then prints its
warning and returns `False` (`validate_exports.py`, lines 219–225): the
module counts as failed and drives a nonzero exit status, contradicting the
"not a failed validation verdict" part. -/
theorem empty_extraction_fails_validation_cex :
    parse_ast_exports "mymod" "hello" = [] ∧
    validate_module_m "mymod" (some "hello") [] false = false := by
  exact ⟨by decide, by decide⟩

/-- C3, amended.  For every dump none of whose lines carries the export
marker for the target module, extraction completes with an empty catalog
(and, being a total function of the text, raises no error); the validator
then surfaces the zero-symbol outcome with a warning message but returns a
failing verdict (`False`) for that module — it is counted as failed, not
merely warned about. -/
theorem empty_extraction_outcome (modName dump : String)
    (h : ∀ l ∈ linesOf dump,
      (containsSub "ExportDecl".data l && containsSub modName.data l) = false) :
    parse_ast_exports modName dump = [] ∧
    ∀ (moduleLines : List String) (listOnly : Bool),
      validate_module_m modName (some dump) moduleLines listOnly = false := by
  have hparse : parse_ast_exports modName dump = [] := by
    unfold parse_ast_exports scanExports
    rw [scanLoop_outside modName.data (linesOf dump) h (linesOf dump) 0 false none []]
    rfl
  refine ⟨hparse, fun moduleLines listOnly => ?_⟩
  unfold validate_module_m
  by_cases hd : dump = ""
  · simp [hd]
  · simp [hd, hparse]

/-- C3, witness: the amended theorem applied to a one-line dump with no
export block. -/
theorem empty_extraction_outcome_witness :
    parse_ast_exports "m" "xyz" = [] ∧
    validate_module_m "m" (some "xyz") [] false = false :=
  ⟨(empty_extraction_outcome "m" "xyz" (by decide)).1,
    (empty_extraction_outcome "m" "xyz" (by decide)).2 [] false⟩

/-- C7: for every dump, the authoritative catalog produced by
`parse_ast_exports` carries each symbol name at most once, and the record
kept for a name is exactly the first record emitted with that name by the
scan (`List.find?` returns the first match), so the first emission
determines the recorded kind and declaration line and later emissions with
the same name (overloads) are discarded. -/
theorem catalog_dedup_first_wins (modName dump : String) :
    ((parse_ast_exports modName dump).map ExportInfo.name).Nodup ∧
    ∀ e ∈ parse_ast_exports modName dump,
      (scanExports modName dump).find? (fun r => r.name == e.name) = some e := by
  have hperm := sortByName_perm (dedupeExports (scanExports modName dump))
  constructor
  · exact ((hperm.map ExportInfo.name).nodup_iff).2
      (dedupeGo_nodup (scanExports modName dump) [])
  · intro e he
    have he' : e ∈ dedupeExports (scanExports modName dump) := hperm.mem_iff.1 he
    exact (dedupeGo_find (scanExports modName dump) [] e he').2

set_option maxRecDepth 40000 in
/-- C7, witness: applied to the overload dump, in which the scan emits
`foo` twice (as a `Function` at line 5, then as a `ClassTemplate` at
line 9); the catalog keeps exactly the first record. -/
theorem catalog_dedup_first_wins_witness :
    (scanExports "mymod" dumpOverload).find?
      (fun r => r.name == (ExportInfo.mk "foo" "Function" 5).name)
      = some (ExportInfo.mk "foo" "Function" 5) :=
  (catalog_dedup_first_wins "mymod" dumpOverload).2
    (ExportInfo.mk "foo" "Function" 5) (by decide)

/-- `takeWhile` stops exactly at the appended tail when every character of
the first part satisfies the predicate and the tail's head does not. -/
lemma takeWhile_append_all (p : Char → Bool) (l r : List Char)
    (hl : ∀ c ∈ l, p c = true)
    (hr : ∀ c, r.head? = some c → p c = false) :
    (l ++ r).takeWhile p = l := by
  induction l with
  | nil =>
    cases r with
    | nil => rfl
    | cons c t => simp [List.takeWhile_cons, hr c rfl]
  | cons a l ih =>
    have ha := hl a (List.mem_cons_self _ _)
    simp only [List.cons_append, List.takeWhile_cons, ha, if_true]
    rw [ih (fun c hc => hl c (List.mem_cons_of_mem _ hc))]

/-- `parseSegs` on a single word run followed by a semicolon, at any fuel. -/
lemma parseSegs_single (name : List Char) (hn : name ≠ [])
    (hnw : ∀ c ∈ name, wordChar c = true) :
    ∀ g, parseSegs g (name ++ [';']) = some ([name], [';']) := by
  intro g
  have hw : (name ++ [';']).takeWhile wordChar = name :=
    takeWhile_append_all wordChar name [';'] hnw
      (by intro c hc; cases hc; decide)
  have hne : name.isEmpty = false := by
    cases name with
    | nil => exact absurd rfl hn
    | cons a l => rfl
  rw [parseSegs.eq_def]
  simp only [hw, hne, Bool.false_eq_true, if_false, List.drop_left]
  cases g with
  | zero => rfl
  | succ f => rfl

/-- `parseSegs` on two word runs separated by `::` and closed by a
semicolon, at any positive fuel. -/
lemma parseSegs_pair (mid name : List Char) (hm : mid ≠ []) (hn : name ≠ [])
    (hmw : ∀ c ∈ mid, wordChar c = true) (hnw : ∀ c ∈ name, wordChar c = true) :
    ∀ f, parseSegs (f + 1) (mid ++ ':' :: ':' :: (name ++ [';']))
      = some ([mid, name], [';']) := by
  intro f
  have hw : (mid ++ ':' :: ':' :: (name ++ [';'])).takeWhile wordChar = mid :=
    takeWhile_append_all wordChar mid (':' :: ':' :: (name ++ [';'])) hmw
      (by intro c hc; cases hc; decide)
  have hne : mid.isEmpty = false := by
    cases mid with
    | nil => exact absurd rfl hm
    | cons a l => rfl
  rw [parseSegs.eq_def]
  simp only [hw, hne, Bool.false_eq_true, if_false, List.drop_left]
  simp only [show isPrefixL "::".data (':' :: ':' :: (name ++ [';'])) = true from rfl,
    if_true, List.drop_succ_cons, List.drop_zero]
  rw [parseSegs_single name hn hnw f]

/-- C4, counterexample.  The claim says every heuristic extractor records
only the final identifier segment, so that `using std::filesystem::path;`
contributes exactly `path`.  But `symbol_coverage.extract_exports` captures
the whole scoped name after `std::` (its group is `(\w+(?:::\w+)*)`), so the
line contributes `filesystem::path` and not `path`; and
`quick_regex_extract` (single-segment group `(\w+)`) does not match the line
at all, contributing nothing. -/
theorem nested_import_capture_cex :
    extractExportsS ["using std::filesystem::path;"] = {"filesystem::path"} ∧
    "path" ∉ extractExportsS ["using std::filesystem::path;"] ∧
    extractExportsQ ["using std::filesystem::path;"] = ∅ := by
  refine ⟨by decide, by decide, by decide⟩

/-- C4, amended.  On a qualifying-import line `using std::MID::NAME;` (one
nested namespace segment), the three heuristic extractors disagree:
`extract_regex_exports` (validate_exports.py) captures only the final
identifier segment `NAME`; `symbol_coverage.extract_exports` captures the
whole scoped name `MID::NAME`; `quick_regex_extract`
(validate_with_ast_dump.py) does not match the line at all. -/
theorem segment_capture_by_extractor (mid name : List Char)
    (hm : mid ≠ []) (hn : name ≠ [])
    (hmw : ∀ c ∈ mid, wordChar c = true) (hnw : ∀ c ∈ name, wordChar c = true) :
    reMatchV ("using std::".data ++ mid ++ "::".data ++ name ++ ";".data)
      = some (String.mk name) ∧
    reMatchS ("using std::".data ++ mid ++ "::".data ++ name ++ ";".data)
      = some (String.mk (mid ++ "::".data ++ name)) ∧
    reMatchQ ("using std::".data ++ mid ++ "::".data ++ name ++ ";".data)
      = none := by
  have hshape : "using std::".data ++ mid ++ "::".data ++ name ++ ";".data
      = "using std::".data ++ (mid ++ ':' :: ':' :: (name ++ [';'])) := by
    simp [List.append_assoc]
  have ha : afterUsingStd ("using std::".data ++ (mid ++ ':' :: ':' :: (name ++ [';'])))
      = some (mid ++ ':' :: ':' :: (name ++ [';'])) := rfl
  have hlen : ∃ f, (mid ++ ':' :: ':' :: (name ++ [';'])).length = f + 1 := by
    cases mid with
    | nil => exact absurd rfl hm
    | cons a l => exact ⟨(l ++ ':' :: ':' :: (name ++ [';'])).length, by simp⟩
  obtain ⟨f, hf⟩ := hlen
  have hw : (mid ++ ':' :: ':' :: (name ++ [';'])).takeWhile wordChar = mid :=
    takeWhile_append_all wordChar mid (':' :: ':' :: (name ++ [';'])) hmw
      (by intro c hc; cases hc; decide)
  have hne : mid.isEmpty = false := by
    cases mid with
    | nil => exact absurd rfl hm
    | cons a l => rfl
  refine ⟨?_, ?_, ?_⟩
  · rw [hshape]
    unfold reMatchV
    rw [ha]
    dsimp only
    rw [hf, parseSegs_pair mid name hm hn hmw hnw f]
    rfl
  · rw [hshape]
    unfold reMatchS
    rw [ha]
    dsimp only
    rw [hf, parseSegs_pair mid name hm hn hmw hnw f]
    rfl
  · rw [hshape]
    unfold reMatchQ
    rw [ha]
    dsimp only
    simp only [hw, hne, Bool.false_eq_true, if_false, List.drop_left]
    rfl

/-- C4, witness: the amended theorem at `using std::filesystem::path;`. -/
theorem segment_capture_by_extractor_witness :
    reMatchV ("using std::".data ++ "filesystem".data ++ "::".data ++
        "path".data ++ ";".data) = some (String.mk "path".data) ∧
    reMatchS ("using std::".data ++ "filesystem".data ++ "::".data ++
        "path".data ++ ";".data)
      = some (String.mk ("filesystem".data ++ "::".data ++ "path".data)) ∧
    reMatchQ ("using std::".data ++ "filesystem".data ++ "::".data ++
        "path".data ++ ";".data) = none :=
  segment_capture_by_extractor "filesystem".data "path".data
    (by decide) (by decide) (by decide) (by decide)

/-- With both files readable, `analyze_coverage` finishes without exiting. -/
lemma analyze_coverage_m_ok (m t : String) :
    ∃ v, analyze_coverage_m (some m) (some t) = Except.ok v := by
  unfold analyze_coverage_m extract_exports_m
  by_cases hE : extractExportsS (m.splitOn "\n") = ∅
  · exact ⟨(0, 0, ∅), by simp [hE]⟩
  · exact ⟨analyzeCounts (extractExportsS (m.splitOn "\n")) t, by simp [hE]⟩

/-- When every module whose test file exists is itself readable, the
`--all` loop finishes without exiting. -/
lemma analyze_all_go_ok : ∀ (mods : List (Option String × Option String)),
    (∀ p ∈ mods, p.2 ≠ none → p.1 ≠ none) →
    ∃ b, analyze_all_go mods = Except.ok b := by
  intro mods
  induction mods with
  | nil => intro _; exact ⟨true, rfl⟩
  | cons hd tl ih =>
    intro h
    obtain ⟨mc, tc⟩ := hd
    obtain ⟨b, hb⟩ := ih fun p hp => h p (List.mem_cons_of_mem _ hp)
    cases tc with
    | none => exact ⟨b, by rw [analyze_all_go]; exact hb⟩
    | some t =>
      have hmc : mc ≠ none := h (mc, some t) (List.mem_cons_self _ _) (by simp)
      obtain ⟨m, rfl⟩ := Option.ne_none_iff_exists'.1 hmc
      obtain ⟨v, hv⟩ := analyze_coverage_m_ok m t
      exact ⟨b && decide (v.2.2 = ∅), by rw [analyze_all_go, hv, hb]⟩

/-- C5, counterexample.  The claim says a missing required input file is
fatal only for that module's run and that coverage reporting always
terminates with a success exit status.  But `extract_exports` calls
`sys.exit(1)` on a missing module file (`symbol_coverage.py`, lines 70–75):
a single-module coverage run over a missing module file exits with status 1,
not 0, and in `--all` mode the same exit aborts every remaining module. -/
theorem coverage_exit_status_cex :
    mainSingle none (some "x") = 1 ∧
    mainAll [(none, some "x"), (some "using std::a;", some "std::a;")] = 1 := by
  exact ⟨rfl, rfl⟩

/-- C5, amended.  In `--all` mode a missing test file (checked with
`exists()` up front) only skips that module; but a missing or unreadable
module file reaching `extract_exports` exits the whole process with status 1
immediately, aborting every module after it — regardless of what follows.
When no file error occurs, coverage reporting exits 0 regardless of the
coverage results. -/
theorem file_not_found_behaviour :
    (∀ (mc : Option String) (rest : List (Option String × Option String)),
      analyze_all_go ((mc, none) :: rest) = analyze_all_go rest) ∧
    (∀ (t : String) (rest : List (Option String × Option String)),
      analyze_all_go ((none, some t) :: rest) = Except.error 1) ∧
    (∀ mods : List (Option String × Option String),
      (∀ p ∈ mods, p.2 ≠ none → p.1 ≠ none) → mainAll mods = 0) ∧
    (∀ m t : String, mainSingle (some m) (some t) = 0) := by
  refine ⟨fun mc rest => rfl, fun t rest => rfl, ?_, ?_⟩
  · intro mods h
    unfold mainAll analyze_all_modules_m
    cases mods with
    | nil => rfl
    | cons hd tl =>
      obtain ⟨b, hb⟩ := analyze_all_go_ok (hd :: tl) h
      simp [hb]
  · intro m t
    obtain ⟨v, hv⟩ := analyze_coverage_m_ok m t
    unfold mainSingle
    rw [hv]

/-- C5, witness: the amended theorem at a run of one readable module
(exit 0 even though its symbol is untested) and at a run starting with a
missing module file (the whole loop aborts with status 1). -/
theorem file_not_found_behaviour_witness :
    mainAll [(some "using std::a;", some "int b;")] = 0 ∧
    analyze_all_go [(none, some "x"), (some "using std::a;", some "int b;")]
      = Except.error 1 :=
  ⟨file_not_found_behaviour.2.2.1 [(some "using std::a;", some "int b;")]
      (by decide),
    file_not_found_behaviour.2.1 "x" [(some "using std::a;", some "int b;")]⟩

/-- C6: for every catalog and test file, the totals of `analyze_coverage`
are the catalog size and the number of symbols whose whole-word qualified
form occurs at least once, the unused set is its complement, and the
reported percentage is `used/total*100` (`0` when the catalog is empty); on
the catalog `{format, format_error}` and a test file with one qualified call
of `format` (and an identifier `std::format_error2`, which word boundaries
keep from counting for either symbol), coverage is `1/2`, i.e. `50%`, with
`format` used and `format_error` unused. -/
theorem coverage_formula :
    (∀ (E : Finset String) (c : String),
      analyzeCounts E c =
        ((E.filter fun s => 0 < countUsages c s).card, E.card,
          E.filter fun s => countUsages c s = 0)) ∧
    (∀ (E : Finset String) (c : String),
      coveragePct (analyzeCounts E c).1 (analyzeCounts E c).2.1 =
        if E.card = 0 then 0
        else ((E.filter fun s => 0 < countUsages c s).card : ℚ) / (E.card : ℚ) * 100) ∧
    analyzeCounts {"format", "format_error"} "std::format(std::format_error2);"
      = (1, 2, {"format_error"}) ∧
    coveragePct 1 2 = 50 ∧
    countUsages "std::format(std::format_error2);" "format" = 1 ∧
    countUsages "std::format(std::format_error2);" "format_error" = 0 := by
  have hcounts : ∀ (E : Finset String) (c : String),
      analyzeCounts E c =
        ((E.filter fun s => 0 < countUsages c s).card, E.card,
          E.filter fun s => countUsages c s = 0) := by
    intro E c
    unfold analyzeCounts
    by_cases hE : E = ∅
    · simp [hE]
    · simp [hE]
  refine ⟨hcounts, ?_, by decide, by norm_num [coveragePct], by decide, by decide⟩
  intro E c
  rw [hcounts E c]
  unfold coveragePct
  by_cases hE : E.card = 0
  · have hE' : E = ∅ := Finset.card_eq_zero.1 hE
    simp [hE, hE']
  · have hpos : 0 < E.card := Nat.pos_of_ne_zero hE
    simp [hE, hpos]

/-- A successful match implies the import statement starts right after the
line's leading whitespace. -/
lemma afterUsingStd_some_prefix (cs r : List Char) (h : afterUsingStd cs = some r) :
    isPrefixL "using".data (cs.dropWhile pySpace) = true := by
  unfold afterUsingStd at h
  by_cases hp : isPrefixL "using".data (cs.dropWhile pySpace) = true
  · exact hp
  · rw [Bool.not_eq_true] at hp
    simp [hp] at h

/-- C8: the heuristic extractors (both the `extract_regex_exports` and the
`symbol_coverage.extract_exports` matchers) extract only from lines on which
nothing but whitespace precedes the `using` keyword — a line-comment marker
or any other non-whitespace prefix defeats the anchored match — while a line
that is, by itself, a well-formed import statement matches even when the
surrounding lines put it inside a multi-line comment: the extractors see one
line at a time and no cross-line comment context is excluded at this
layer. -/
theorem heuristic_line_anchoring :
    (∀ (cs : List Char) (n : String), reMatchV cs = some n →
      isPrefixL "using".data (cs.dropWhile pySpace) = true) ∧
    (∀ (cs : List Char) (n : String), reMatchS cs = some n →
      isPrefixL "using".data (cs.dropWhile pySpace) = true) ∧
    reMatchV "// using std::vector;".data = none ∧
    reMatchS "// using std::vector;".data = none ∧
    reMatchV "using std::vector;".data = some "vector" ∧
    reMatchS "using std::vector;".data = some "vector" ∧
    extractExportsV ["/*", "using std::vector;", "*/"] = {"vector"} ∧
    extractExportsS ["/*", "using std::vector;", "*/"] = {"vector"} := by
  refine ⟨?_, ?_, by decide, by decide, by decide, by decide, by decide, by decide⟩
  · intro cs n h
    unfold reMatchV at h
    cases ha : afterUsingStd cs with
    | none => rw [ha] at h; exact absurd h (by simp)
    | some r => exact afterUsingStd_some_prefix cs r ha
  · intro cs n h
    unfold reMatchS at h
    cases ha : afterUsingStd cs with
    | none => rw [ha] at h; exact absurd h (by simp)
    | some r => exact afterUsingStd_some_prefix cs r ha

/-- C8, witness: the anchoring conjunct applied to an indented matching
line. -/
theorem heuristic_line_anchoring_witness :
    isPrefixL "using".data ("  using std::abc;".data.dropWhile pySpace) = true :=
  heuristic_line_anchoring.1 "  using std::abc;".data "abc" (by decide)

/-- C9, counterexample.  The claim says every `UsageRecord` comes from a
node whose originating source location is the test file itself.  The
location filter of `find_usages` is `if cursor.location.file and
str(cursor.location.file) != str(self.test_file): return` (`ast_poc.py`,
line 184): a node whose location has no file at all passes the truthiness
test and is counted, yet its location is not the test file. -/
theorem usage_location_filter_cex :
    find_usages "test.cpp" ["format"] 1 nodeNoFile
      = [⟨"format", "reference", none, 7⟩] ∧
    (UsageRecord.mk "format" "reference" none 7).file ≠ some "test.cpp" := by
  exact ⟨by decide, by decide⟩

/-- C9, amended.  Every `UsageRecord` produced by the authoritative
usage-locating walk comes from a node whose location file is either absent
(a null location file, which the truthiness filter lets through) or the test
file itself; a node whose location names any other file — an included or
transitively brought-in file — is pruned together with its whole subtree and
never counted. -/
theorem usage_location_filter (tf : String) (syms : List String) :
    ∀ (fuel : Nat) (n : PNode) (r : UsageRecord),
      r ∈ find_usages tf syms fuel n → r.file = none ∨ r.file = some tf := by
  have hhere : ∀ (k : CKind) (sp tsp : String) (file : Option String) (line : Nat)
      (children : List PNode) (r : UsageRecord),
      r ∈ hereRecords syms k sp tsp file line children → r.file = file := by
    intro k sp tsp file line children r h
    unfold hereRecords at h
    cases k with
    | callExpr =>
      dsimp only at h
      cases hfc : firstRefChild children with
      | none => rw [hfc] at h; simp at h
      | some csp =>
        rw [hfc] at h
        dsimp only at h
        by_cases hs : syms.contains (lastSegS csp) = true
        · rw [if_pos hs] at h
          simp only [List.mem_singleton] at h
          rw [h]
        · rw [if_neg hs] at h; simp at h
    | declRefExpr =>
      dsimp only at h
      by_cases hs : syms.contains (lastSegS sp) = true
      · rw [if_pos hs] at h
        simp only [List.mem_singleton] at h
        rw [h]
      · rw [if_neg hs] at h; simp at h
    | memberRefExpr => simp at h
    | varDecl =>
      dsimp only at h
      by_cases hs : syms.contains (lastSegS tsp) = true
      · rw [if_pos hs] at h
        simp only [List.mem_singleton] at h
        rw [h]
      · rw [if_neg hs] at h; simp at h
    | other => simp at h
  intro fuel
  induction fuel with
  | zero => intro n r h; simp [find_usages, visitFuel] at h
  | succ f ih =>
    intro n r h
    cases n with
    | mk k sp tsp file line children =>
      unfold find_usages visitFuel at h
      cases hg : locOutside tf file with
      | true => rw [hg] at h; simp at h
      | false =>
        rw [hg] at h
        simp only [Bool.false_eq_true, if_false] at h
        have hfile : file = none ∨ file = some tf := by
          cases file with
          | none => exact Or.inl rfl
          | some fl =>
            refine Or.inr ?_
            have hfl : ¬fl ≠ tf := by
              intro hne
              rw [show locOutside tf (some fl) = decide (fl ≠ tf) from rfl] at hg
              simp [hne] at hg
            rw [not_not.1 hfl]
        rcases List.mem_append.1 h with hh | hc
        · rw [hhere k sp tsp file line children r hh]
          exact hfile
        · simp only [List.mem_flatten, List.mem_map] at hc
          obtain ⟨l, ⟨c, hcmem, hceq⟩, hrl⟩ := hc
          exact ih c r (by rw [find_usages, hceq]; exact hrl)

/-- C9, witness: the amended theorem applied to a one-node tree located in
the test file itself. -/
theorem usage_location_filter_witness :
    (UsageRecord.mk "x" "reference" (some "t.cpp") 3).file = none ∨
    (UsageRecord.mk "x" "reference" (some "t.cpp") 3).file = some "t.cpp" :=
  usage_location_filter "t.cpp" ["x"] 1
    (PNode.mk CKind.declRefExpr "std::x" "" (some "t.cpp") 3 [])
    (UsageRecord.mk "x" "reference" (some "t.cpp") 3) (by decide)

end StdModule
